import Mathlib

/-!
Verification of the Gmail fetch-and-normalize pipeline
(`backend/app/fetcher_gmail/gmail_client.py`) against its specification.

The Python source is shallowly embedded: every remote response is a value
handed to the embedded function (the HTTP layer itself is out of scope),
JSON string fields that may be missing are `Option String`, Python
exceptions are `Except` errors, and the standard-library base64url and
UTF-8 decoders are abstract function parameters `b64 : String → List Nat`
(string to decoded bytes) and `utf8 : List Nat → String` (bytes to text,
invalid sequences replaced).
-/

namespace GmailClient

/-- Python exception kinds raised by the embedded code:
`httpx.HTTPStatusError` (from `raise_for_status`) carrying the status, and
`ValueError` (from `int(...)` on a non-numeric string). -/
inductive PyError where
  | httpStatus (code : Nat)
  | valueError
deriving DecidableEq, Repr

/-- `TRANSIENT_STATUSES = {429, 500, 502, 503}` (gmail_client.py line 11). -/
def TRANSIENT_STATUSES : List Nat := [429, 500, 502, 503]

/-- `Response.raise_for_status()`: raises an HTTP status error exactly for
4xx/5xx status codes, otherwise returns without effect. -/
def raise_for_status (status : Nat) : Except PyError Unit :=
  if 400 ≤ status ∧ status < 600 then Except.error (PyError.httpStatus status)
  else Except.ok ()

/-- Loop body of `_backoff_get` (lines 62-68).  The remote is modelled as
`resps : Nat → Nat`, the status of the response to the i-th request
(0-indexed).  The result is the number of requests issued, paired with
`Except.ok k` when the response to request `k` is returned, or
`Except.error e` when the final `resp.raise_for_status()` raises.
`attempt` is the Python loop variable. -/
def backoff_get_go (resps : Nat → Nat) (max_retries attempt : Nat) :
    Nat × Except PyError Nat :=
  if h : attempt ≤ max_retries then
    if resps attempt ∈ TRANSIENT_STATUSES then
      backoff_get_go resps max_retries (attempt + 1)
    else
      (attempt + 1, Except.ok attempt)
  else
    (max_retries + 1,
      match raise_for_status (resps max_retries) with
      | Except.error e => Except.error e
      | Except.ok _ => Except.ok max_retries)
termination_by max_retries + 1 - attempt
decreasing_by omega

/-- `_backoff_get(client, url, params, max_retries, timeout)` (lines 55-68):
`for attempt in range(max_retries + 1)` starting at attempt 0. -/
def backoff_get (resps : Nat → Nat) (max_retries : Nat) :
    Nat × Except PyError Nat :=
  backoff_get_go resps max_retries 0

/-- One server page as consumed by `_paginate`: the array found under
`item_key` (`data.get(item_key, [])`, absent modelled as `[]`) and the
`nextPageToken` field (`data.get("nextPageToken")`, `none` when absent). -/
structure PageResp (α : Type) where
  items : List α
  nextPageToken : Option String
deriving DecidableEq, Repr

/-- Python truthiness of `token = data.get("nextPageToken")`:
`if not token: break` treats both a missing token and an empty-string
token as falsy. -/
def tokenTruthy : Option String → Bool
  | none => false
  | some s => s != ""

/-- Trace of one `_paginate` run: the yielded items, the number of GET
requests performed, the successive values assigned to
`params[page_token_param]`, and whether the loop reached its `break`
(`finished = false` means the supplied response trace ran out while the
loop still wanted another page). -/
structure PaginateResult (α : Type) where
  yielded : List α
  requests : Nat
  tokensSent : List String
  finished : Bool
deriving DecidableEq, Repr

/-- `_paginate(client, url, params, item_key, page_token_param)`
(lines 70-86), run against a finite trace of server pages: the response to
the k-th GET is the k-th element of `pages`.  Each iteration yields the
page's items, then breaks if the `nextPageToken` is falsy, otherwise
stores it into `params[page_token_param]` and continues. -/
def paginate {α : Type} : List (PageResp α) → PaginateResult α
  | [] => { yielded := [], requests := 0, tokensSent := [], finished := false }
  | p :: rest =>
    if tokenTruthy p.nextPageToken then
      let r := paginate rest
      { yielded := p.items ++ r.yielded
        requests := r.requests + 1
        tokensSent := p.nextPageToken.getD "" :: r.tokensSent
        finished := r.finished }
    else
      { yielded := p.items, requests := 1, tokensSent := [], finished := true }

/-- Index of the first page on which `_paginate`'s `if not token: break`
fires, i.e. the first page whose `nextPageToken` is absent or the empty
string; `none` when every supplied page carries a non-empty token. -/
def firstExhaustIdx {α : Type} : List (PageResp α) → Option Nat
  | [] => none
  | p :: rest =>
    if tokenTruthy p.nextPageToken then (firstExhaustIdx rest).map (· + 1)
    else some 0

/-- ASCII lowercasing of one character — the effect of Python's
`str.lower()` on the ASCII header names and mimeTypes this module
compares. -/
def lowerChar (c : Char) : Char :=
  if 65 ≤ c.toNat ∧ c.toNat ≤ 90 then Char.ofNat (c.toNat + 32) else c

/-- Python `s.lower()` (ASCII). -/
def lowerStr (s : String) : String := (s.toList.map lowerChar).asString

/-- Python `s.startswith(pre)`. -/
def strStartsWith (s pre : String) : Bool := pre.toList.isPrefixOf s.toList

/-- Python `s[:n]`: the first `n` characters of `s`. -/
def strTake (s : String) (n : Nat) : String := (s.toList.take n).asString

/-- Python whitespace stripped by `int(...)`. -/
def isPySpace (c : Char) : Bool :=
  c == ' ' || c == '\t' || c == '\n' || c == '\r' || c == '\x0B' || c == '\x0C'

/-- Python `s.strip()` of whitespace. -/
def trimStr (s : String) : String :=
  ((s.toList.dropWhile isPySpace).reverse.dropWhile isPySpace).reverse.asString

/-- The value of a decimal digit character. -/
def charDigit? (c : Char) : Option Nat :=
  if 48 ≤ c.toNat ∧ c.toNat ≤ 57 then some (c.toNat - 48) else none

/-- Parse a non-empty all-digit character list as a natural number. -/
def digitsToNat? (l : List Char) : Option Nat :=
  if l = [] then none
  else
    l.foldl (fun acc c =>
      match acc, charDigit? c with
      | some n, some d => some (n * 10 + d)
      | _, _ => none) (some 0)

/-- One step of building a Python dict from key/value pairs:
`d[k] = v` updates the value in place (keeping the key's original
insertion position) when the exact key is already present, and appends a
new entry otherwise.  The dict is modelled as its insertion-ordered entry
list. -/
def dictInsert (m : List (String × String)) (k v : String) :
    List (String × String) :=
  if m.any (fun p => p.1 == k) then
    m.map (fun p => if p.1 == k then (k, v) else p)
  else
    m ++ [(k, v)]

/-- `_headers_to_map(headers)` (lines 117-118):
`{h["name"]: h["value"] for h in headers or []}`, a Python dict built by
inserting each header in list order. -/
def headers_to_map (headers : List (String × String)) :
    List (String × String) :=
  headers.foldl (fun m h => dictInsert m h.1 h.2) []

/-- `_pick(hmap, name)` (lines 120-125): iterate the dict entries in
insertion order and return the value of the first key equal to `name`
case-insensitively. -/
def pick (hmap : List (String × String)) (name : String) : Option String :=
  hmap.findSome? (fun p =>
    if lowerStr p.1 == lowerStr name then some p.2 else none)

/-- First case-insensitive match over the original header *list* in list
order — the lookup behaviour the specification describes. -/
def firstMatchLookup (headers : List (String × String)) (name : String) :
    Option String :=
  headers.findSome? (fun p =>
    if lowerStr p.1 == lowerStr name then some p.2 else none)

/-- The `body` object of a Gmail content part: inline `data` (URL-safe
base64), an `attachmentId` reference, and a `size`; every field may be
absent. -/
structure PartBody where
  data : Option String
  attachmentId : Option String
  size : Option Nat
deriving DecidableEq, Repr

mutual

/-- A Gmail `payload` content part: `mimeType`, `filename`, `headers`,
`body` and child `parts` (all possibly absent in the JSON; an absent
`headers`/`parts` is modelled as the empty sequence, absent `body` as the
all-`none` body, and absent `mimeType`/`filename` as `none`). -/
inductive ContentPart where
  | node (mimeType : Option String) (filename : Option String)
      (headers : List (String × String)) (body : PartBody)
      (parts : ContentPartList)

/-- The `parts` array of a content part. -/
inductive ContentPartList where
  | nil
  | cons (p : ContentPart) (ps : ContentPartList)

end

mutual

/-- Body-collection walk of `extract_bodies` (lines 128-143): a node with
truthy inline `data` and a non-multipart `mimeType` contributes its
decoded bytes to the text/plain or text/html list (mimeType compared
without lowercasing, as in the source), then children contribute in
order. -/
def extractWalk (b64 : String → List Nat) :
    ContentPart → List (List Nat) × List (List Nat)
  | ContentPart.node mimeType _ _ body parts =>
    let mime := mimeType.getD ""
    let own : List (List Nat) × List (List Nat) :=
      match body.data with
      | some d =>
        if d != "" && !(strStartsWith mime "multipart/") then
          if strStartsWith mime "text/plain" then ([b64 d], [])
          else if strStartsWith mime "text/html" then ([], [b64 d])
          else ([], [])
        else ([], [])
      | none => ([], [])
    let rest := extractWalkList b64 parts
    (own.1 ++ rest.1, own.2 ++ rest.2)

/-- Children loop of the `extract_bodies` walk. -/
def extractWalkList (b64 : String → List Nat) :
    ContentPartList → List (List Nat) × List (List Nat)
  | ContentPartList.nil => ([], [])
  | ContentPartList.cons p ps =>
    let r := extractWalk b64 p
    let rs := extractWalkList b64 ps
    (r.1 ++ rs.1, r.2 ++ rs.2)

end

/-- `b"\n".join(chunks)`: byte 10 interspersed between the chunks. -/
def joinBytes (chunks : List (List Nat)) : List Nat :=
  (chunks.intersperse [10]).flatten

/-- `extract_bodies(payload)` (lines 127-148): returns
`(body_text, body_html)`, each `none` when its collected list is empty and
otherwise the UTF-8 decode of the newline-joined chunks. -/
def extract_bodies (b64 : String → List Nat) (utf8 : List Nat → String)
    (payload : ContentPart) : Option String × Option String :=
  let r := extractWalk b64 payload
  (if r.1 = [] then none else some (utf8 (joinBytes r.1)),
   if r.2 = [] then none else some (utf8 (joinBytes r.2)))

mutual

/-- Depth-first pre-order list of the nodes of a content-part tree
(node first, then its children's subtrees in order). -/
def preorderNodes : ContentPart → List ContentPart
  | ContentPart.node mimeType filename headers body parts =>
    ContentPart.node mimeType filename headers body parts ::
      preorderNodesList parts

/-- Pre-order node lists of a forest, concatenated in order. -/
def preorderNodesList : ContentPartList → List ContentPart
  | ContentPartList.nil => []
  | ContentPartList.cons p ps => preorderNodes p ++ preorderNodesList ps

end

/-- A node "with inline body data and a non-multipart mimeType starting
with text/plain": the claim's classification of the nodes contributing to
`body_text`.  Inline body data means a non-empty `data` field (the code
treats an empty string as no data). -/
def isPlainDataNode : ContentPart → Bool
  | ContentPart.node mimeType _ _ body _ =>
    let mime := mimeType.getD ""
    (body.data.getD "" != "") && !(strStartsWith mime "multipart/") &&
      strStartsWith mime "text/plain"

/-- Same classification for `body_html`: inline data, non-multipart,
mimeType starting with text/html (and not text/plain, which the source
checks first — the two prefixes are mutually exclusive anyway). -/
def isHtmlDataNode : ContentPart → Bool
  | ContentPart.node mimeType _ _ body _ =>
    let mime := mimeType.getD ""
    (body.data.getD "" != "") && !(strStartsWith mime "multipart/") &&
      !(strStartsWith mime "text/plain") && strStartsWith mime "text/html"

/-- The `data` a node contributes to `body_text` (`none` when it is not a
text/plain contributing node). -/
def plainSel (p : ContentPart) : Option String :=
  if isPlainDataNode p then
    match p with | ContentPart.node _ _ _ body _ => body.data
  else none

/-- The `data` a node contributes to `body_html`. -/
def htmlSel (p : ContentPart) : Option String :=
  if isHtmlDataNode p then
    match p with | ContentPart.node _ _ _ body _ => body.data
  else none

/-- The `data` fields of the text/plain contributing nodes, in depth-first
pre-order — the specification's description of what `body_text` joins. -/
def plainDatas (t : ContentPart) : List String :=
  (preorderNodes t).filterMap plainSel

/-- The `data` fields of the text/html contributing nodes, in depth-first
pre-order. -/
def htmlDatas (t : ContentPart) : List String :=
  (preorderNodes t).filterMap htmlSel

/-- The `body` object of a processed part as produced by
`_strip_attachments_preserve_meta`: the original optional fields plus the
keys the function may add.  `strippedFlag`/`truncatedFlag` model the
presence of the `"_stripped"`/`"_truncated"` keys (only ever set to
`True`); `decodedText`/`decodedLen` model the `"decodedText"` and
`"_decoded_len"` keys. -/
structure OutBody where
  data : Option String
  attachmentId : Option String
  size : Option Nat
  strippedFlag : Bool
  decodedText : Option String
  decodedLen : Option Nat
  truncatedFlag : Bool
deriving DecidableEq, Repr

mutual

/-- A processed content part (`out = dict(part)` with `parts` and `body`
replaced). -/
inductive OutPart where
  | node (mimeType : Option String) (filename : Option String)
      (headers : List (String × String)) (body : OutBody)
      (parts : OutPartList)

/-- The `parts` array of a processed content part. -/
inductive OutPartList where
  | nil
  | cons (p : OutPart) (ps : OutPartList)

end

/-- The processed root's `body`. -/
def OutPart.body : OutPart → OutBody
  | OutPart.node _ _ _ b _ => b

/-- `AttachmentMeta`: the dict appended to `_collect_meta` (lines 211-218).
`filename` is `filename or None`, `mimeType` the raw original field,
`size`/`attachmentId` read from the body, `headers` the part's headers,
`inline = (not filename) and not is_multipart and not is_text`. -/
structure AttachmentMeta where
  filename : Option String
  mimeType : Option String
  size : Option Nat
  attachmentId : Option String
  headers : List (String × String)
  inline : Bool
deriving DecidableEq, Repr

/-- `is_attachment_like` (lines 205-207): non-empty `filename`, or neither
text (`text/plain`/`text/html`) nor `multipart/` after lowercasing the
mimeType. -/
def is_attachment_like : ContentPart → Bool
  | ContentPart.node mimeType filename _ _ _ =>
    let mime := lowerStr (mimeType.getD "")
    let fname := filename.getD ""
    let is_text :=
      strStartsWith mime "text/plain" || strStartsWith mime "text/html"
    let is_multipart := strStartsWith mime "multipart/"
    (fname != "") || (!is_text && !is_multipart)

/-- The `meta` dict built for an attachment-like part (lines 211-218). -/
def attachMetaOf : ContentPart → AttachmentMeta
  | ContentPart.node mimeType filename headers body _ =>
    let mime := lowerStr (mimeType.getD "")
    let fname := filename.getD ""
    let is_text :=
      strStartsWith mime "text/plain" || strStartsWith mime "text/html"
    let is_multipart := strStartsWith mime "multipart/"
    { filename := if fname == "" then none else some fname
      mimeType := mimeType
      size := body.size
      attachmentId := body.attachmentId
      headers := headers
      inline := (fname == "") && !is_multipart && !is_text }

mutual

/-- `_strip_attachments_preserve_meta(part, decode_text, max_text_chars,
_collect_meta)` (lines 180-246).  Children are processed first; the
returned meta list is the sequence of records appended to the shared
`_collect_meta` accumulator during this call (children's appends happen
before the parent's own), emitted only when `collectMeta` is true
(`_collect_meta is not None`). -/
def strip_attachments_preserve_meta (b64 : String → List Nat)
    (utf8 : List Nat → String) (decode_text : Bool)
    (max_text_chars : Option Nat) (collectMeta : Bool) :
    ContentPart → OutPart × List AttachmentMeta
  | ContentPart.node mimeType filename headers body parts =>
    let mime := lowerStr (mimeType.getD "")
    let fname := filename.getD ""
    let recd := strip_attachments_list b64 utf8 decode_text max_text_chars
      collectMeta parts
    let is_text :=
      strStartsWith mime "text/plain" || strStartsWith mime "text/html"
    let is_multipart := strStartsWith mime "multipart/"
    let is_attach := (fname != "") || (!is_text && !is_multipart)
    if is_attach then
      let meta := attachMetaOf
        (ContentPart.node mimeType filename headers body parts)
      (OutPart.node mimeType filename headers
        { data := none, attachmentId := body.attachmentId, size := body.size
          strippedFlag := true, decodedText := none, decodedLen := none
          truncatedFlag := false } recd.1,
       recd.2 ++ (if collectMeta then [meta] else []))
    else if is_text && decode_text && (body.data.getD "" != "") then
      let d := body.data.getD ""
      let raw := b64 d
      let decoded := utf8 raw
      let cut : Bool :=
        match max_text_chars with
        | some m => decide (m < decoded.length)
        | none => false
      let decodedOut :=
        match max_text_chars with
        | some m => if m < decoded.length then strTake decoded m else decoded
        | none => decoded
      (OutPart.node mimeType filename headers
        { data := none, attachmentId := body.attachmentId, size := body.size
          strippedFlag := false, decodedText := some decodedOut
          decodedLen := some raw.length, truncatedFlag := cut } recd.1,
       recd.2)
    else
      (OutPart.node mimeType filename headers
        { data := body.data, attachmentId := body.attachmentId
          size := body.size, strippedFlag := false, decodedText := none
          decodedLen := none, truncatedFlag := false } recd.1,
       recd.2)

/-- The recursion over `parts` (lines 198-203): processed children in
order, with their meta-accumulator appends concatenated in order. -/
def strip_attachments_list (b64 : String → List Nat)
    (utf8 : List Nat → String) (decode_text : Bool)
    (max_text_chars : Option Nat) (collectMeta : Bool) :
    ContentPartList → OutPartList × List AttachmentMeta
  | ContentPartList.nil => (OutPartList.nil, [])
  | ContentPartList.cons p ps =>
    let r := strip_attachments_preserve_meta b64 utf8 decode_text
      max_text_chars collectMeta p
    let rs := strip_attachments_list b64 utf8 decode_text max_text_chars
      collectMeta ps
    (OutPartList.cons r.1 rs.1, r.2 ++ rs.2)

end

mutual

/-- Meta records of the attachment-like nodes in depth-first post-order
(each node's record after all records from its children) — the order the
code's shared accumulator actually receives. -/
def postMetaList : ContentPart → List AttachmentMeta
  | ContentPart.node mimeType filename headers body parts =>
    postMetaListF parts ++
      (if is_attachment_like
          (ContentPart.node mimeType filename headers body parts) then
        [attachMetaOf (ContentPart.node mimeType filename headers body parts)]
      else [])

/-- Post-order meta records of a forest. -/
def postMetaListF : ContentPartList → List AttachmentMeta
  | ContentPartList.nil => []
  | ContentPartList.cons p ps => postMetaList p ++ postMetaListF ps

end

/-- Meta records of the attachment-like nodes in depth-first pre-order —
the order the claim asserts. -/
def preMetaList (t : ContentPart) : List AttachmentMeta :=
  (preorderNodes t).filterMap (fun p =>
    if is_attachment_like p then some (attachMetaOf p) else none)

/-- Number of attachment-like nodes of the tree. -/
def countAttachLike (t : ContentPart) : Nat :=
  ((preorderNodes t).filter (fun p => is_attachment_like p)).length

/-- Number of attachment-like nodes of a forest. -/
def countAttachLikeF (ps : ContentPartList) : Nat :=
  ((preorderNodesList ps).filter (fun p => is_attachment_like p)).length

mutual

/-- Checker for the claim's safety property on the processed tree: every
attachment-like node (classified from the preserved `mimeType`/`filename`
fields) has no `data` field and carries `_stripped = true`. -/
def noDataOnAttachLike : OutPart → Bool
  | OutPart.node mimeType filename _ body parts =>
    let mime := lowerStr (mimeType.getD "")
    let fname := filename.getD ""
    let is_text :=
      strStartsWith mime "text/plain" || strStartsWith mime "text/html"
    let is_multipart := strStartsWith mime "multipart/"
    let is_attach := (fname != "") || (!is_text && !is_multipart)
    (if is_attach then body.data == none && body.strippedFlag else true) &&
      noDataOnAttachLikeF parts

/-- Forest version of `noDataOnAttachLike`. -/
def noDataOnAttachLikeF : OutPartList → Bool
  | OutPartList.nil => true
  | OutPartList.cons p ps => noDataOnAttachLike p && noDataOnAttachLikeF ps

end

/-- A `RawMessage`: the root fields of the Gmail message JSON used by this
module; every field may be absent. -/
structure RawMessage where
  id : Option String
  threadId : Option String
  historyId : Option String
  internalDate : Option String
  sizeEstimate : Option Nat
  snippet : Option String
  labelIds : List String
  payload : Option ContentPart

/-- The empty dict `{}` substituted for an absent `payload`. -/
def emptyContentPart : ContentPart :=
  ContentPart.node none none []
    { data := none, attachmentId := none, size := none } ContentPartList.nil

/-- The `headers` list of a content part
(`payload.get("headers", []) or []`, absent modelled as `[]`). -/
def ContentPart.headers : ContentPart → List (String × String)
  | ContentPart.node _ _ hs _ _ => hs

/-- Python `int(s)` on a string: optional surrounding whitespace, an
optional sign, then decimal digits; any other string raises `ValueError`
(modelled as `none`). -/
def pyIntParse (s : String) : Option Int :=
  let t := (trimStr s).toList
  let core :=
    if t.head? == some '+' || t.head? == some '-' then t.drop 1 else t
  match digitsToNat? core with
  | none => none
  | some n => some (if t.head? == some '-' then -(n : Int) else (n : Int))

/-- `int(msg.get("internalDate", "0"))` (lines 159 and 421): an absent
field parses the default `"0"`; a present but unparseable string raises
`ValueError`. -/
def internalDateMs (internalDate : Option String) : Except PyError Int :=
  match pyIntParse (internalDate.getD "0") with
  | some n => Except.ok n
  | none => Except.error PyError.valueError

/-- `NormalizedMessage` (the dict built by `normalize_message`,
lines 155-175).  The source's `to` and `from_` keys are `to_`/`from_`
here (`to` is reserved). -/
structure NormalizedMessage where
  id : Option String
  thread_id : Option String
  history_id : Option String
  internal_date_ms : Int
  size_estimate : Option Nat
  message_id : Option String
  subject : Option String
  from_ : Option String
  to_ : Option String
  cc : Option String
  bcc : Option String
  reply_to : Option String
  in_reply_to : Option String
  references : Option String
  snippet : Option String
  body_text : Option String
  body_html : Option String
  labels : List String
  headers : List (String × String)

/-- `normalize_message(msg)` (lines 150-175).  The only failure point is
`int(...)` on the `internalDate` string, which raises `ValueError`; the
rest is a pure projection. -/
def normalize_message (b64 : String → List Nat) (utf8 : List Nat → String)
    (msg : RawMessage) : Except PyError NormalizedMessage :=
  let payload := msg.payload.getD emptyContentPart
  let h := headers_to_map payload.headers
  let th := extract_bodies b64 utf8 payload
  match internalDateMs msg.internalDate with
  | Except.error e => Except.error e
  | Except.ok n =>
    Except.ok
      { id := msg.id
        thread_id := msg.threadId
        history_id := msg.historyId
        internal_date_ms := n
        size_estimate := msg.sizeEstimate
        message_id := pick h "Message-ID"
        subject := pick h "Subject"
        from_ := pick h "From"
        to_ := pick h "To"
        cc := pick h "Cc"
        bcc := pick h "Bcc"
        reply_to := pick h "Reply-To"
        in_reply_to := pick h "In-Reply-To"
        references := pick h "References"
        snippet := msg.snippet
        body_text := th.1
        body_html := th.2
        labels := msg.labelIds
        headers := h }

/-- The result of `strip_message_full_keep_blobs_out` (lines 248-264): the
message's root fields with `payload` processed and, when requested, the
added `attachments_meta` list (`none` models the key being absent). -/
structure StrippedMessage where
  id : Option String
  threadId : Option String
  historyId : Option String
  internalDate : Option String
  sizeEstimate : Option Nat
  snippet : Option String
  labelIds : List String
  payload : OutPart
  attachments_meta : Option (List AttachmentMeta)

/-- `strip_message_full_keep_blobs_out(msg, decode_text, max_text_chars,
include_attachments_meta)` (lines 248-264). -/
def strip_message_full_keep_blobs_out (b64 : String → List Nat)
    (utf8 : List Nat → String) (decode_text : Bool)
    (max_text_chars : Option Nat) (include_attachments_meta : Bool)
    (msg : RawMessage) : StrippedMessage :=
  let payload := msg.payload.getD emptyContentPart
  let r := strip_attachments_preserve_meta b64 utf8 decode_text
    max_text_chars include_attachments_meta payload
  { id := msg.id
    threadId := msg.threadId
    historyId := msg.historyId
    internalDate := msg.internalDate
    sizeEstimate := msg.sizeEstimate
    snippet := msg.snippet
    labelIds := msg.labelIds
    payload := r.1
    attachments_meta := if include_attachments_meta then some r.2 else none }

/-- A remote response whose JSON body is queried for one string field:
the status code paired with that field's value (`none` when absent). -/
def get_profile_history_id (resp : Nat × Option String) : Option String :=
  if resp.1 = 200 then resp.2 else none

/-- `fetch_attachment_data_b64(client, msg_id, attachment_id)`
(lines 349-358): `resp.json().get("data")` when the (already retried)
response has status 200, and `None` for every other status. -/
def fetch_attachment_data_b64 (resp : Nat × Option String) : Option String :=
  if resp.1 = 200 then resp.2 else none

/-- `fetch_message_full(client, msg_id)` (lines 107-112):
`resp.raise_for_status()` then `resp.json()`; the (already retried)
response is its status paired with its parsed body. -/
def fetch_message_full (resp : Nat × RawMessage) :
    Except PyError RawMessage :=
  match raise_for_status resp.1 with
  | Except.error e => Except.error e
  | Except.ok _ => Except.ok resp.2

mutual

/-- Walk of `extract_bodies_attachment_aware` (lines 368-390): like the
plain walk but with the mimeType lowercased, and a text part with falsy
inline `data` and a truthy `attachmentId` first tries the attachments
endpoint (`att` maps the attachmentId to that endpoint's response for the
message at hand). -/
def ebaaWalk (b64 : String → List Nat) (att : String → Nat × Option String) :
    ContentPart → List (List Nat) × List (List Nat)
  | ContentPart.node mimeType _ _ body parts =>
    let mime := lowerStr (mimeType.getD "")
    let own : List (List Nat) × List (List Nat) :=
      if !(strStartsWith mime "multipart/") &&
          (strStartsWith mime "text/plain" || strStartsWith mime "text/html") then
        let data_b64 :=
          if (body.data.getD "" == "") && (body.attachmentId.getD "" != "")
          then fetch_attachment_data_b64 (att (body.attachmentId.getD ""))
          else body.data
        match data_b64 with
        | some s =>
          if s != "" then
            if strStartsWith mime "text/plain" then ([b64 s], [])
            else ([], [b64 s])
          else ([], [])
        | none => ([], [])
      else ([], [])
    let rest := ebaaWalkList b64 att parts
    (own.1 ++ rest.1, own.2 ++ rest.2)

/-- Children loop of the attachment-aware walk. -/
def ebaaWalkList (b64 : String → List Nat)
    (att : String → Nat × Option String) :
    ContentPartList → List (List Nat) × List (List Nat)
  | ContentPartList.nil => ([], [])
  | ContentPartList.cons p ps =>
    let r := ebaaWalk b64 att p
    let rs := ebaaWalkList b64 att ps
    (r.1 ++ rs.1, r.2 ++ rs.2)

end

/-- `extract_bodies_attachment_aware(client, msg_id, payload)`
(lines 361-395). -/
def extract_bodies_attachment_aware (b64 : String → List Nat)
    (utf8 : List Nat → String) (att : String → Nat × Option String)
    (payload : ContentPart) : Option String × Option String :=
  let r := ebaaWalk b64 att payload
  (if r.1 = [] then none else some (utf8 (joinBytes r.1)),
   if r.2 = [] then none else some (utf8 (joinBytes r.2)))

/-- `LlmProjection` (the dict built by `fetch_llm_projection`,
lines 418-428). -/
structure LlmProjection where
  id : Option String
  thread_id : Option String
  internal_date_ms : Int
  date : Option String
  from_ : Option String
  subject : Option String
  body : String
  body_format : String
  body_chars : Nat

/-- Python truthiness of an optional string (`None` and `""` are falsy). -/
def strTruthy : Option String → Bool
  | none => false
  | some s => s != ""

/-- `fetch_llm_projection(client, msg_id, prefer_plain)` (lines 398-428):
fetch the full message (propagating its HTTP error), pick headers, run the
attachment-aware body extraction, choose
`body = text if (prefer_plain and text) else (html or text) or ""` and the
matching `body_format`, and parse `internalDate` (raising on an
unparseable string). -/
def fetch_llm_projection (b64 : String → List Nat)
    (utf8 : List Nat → String) (att : String → Nat × Option String)
    (resp : Nat × RawMessage) (prefer_plain : Bool) :
    Except PyError LlmProjection :=
  match fetch_message_full resp with
  | Except.error e => Except.error e
  | Except.ok full =>
    let payload := full.payload.getD emptyContentPart
    let h := headers_to_map payload.headers
    let th := extract_bodies_attachment_aware b64 utf8 att payload
    let text := th.1
    let html := th.2
    let body :=
      if prefer_plain && strTruthy text then text.getD ""
      else if strTruthy html then html.getD ""
      else if strTruthy text then text.getD ""
      else ""
    let body_format :=
      if prefer_plain && strTruthy text then "text/plain"
      else if strTruthy html then "text/html"
      else "text/plain"
    match internalDateMs full.internalDate with
    | Except.error e => Except.error e
    | Except.ok n =>
      Except.ok
        { id := full.id
          thread_id := full.threadId
          internal_date_ms := n
          date := pick h "Date"
          from_ := pick h "From"
          subject := pick h "Subject"
          body := body
          body_format := body_format
          body_chars := body.length }

/-- Python truthiness of `if limit and count >= limit:` — `None` and `0`
are falsy, so the break can only fire for a positive limit. -/
def limitReached (limit : Option Nat) (count : Nat) : Bool :=
  match limit with
  | none => false
  | some l => if l = 0 then false else decide (count ≥ l)

/-- The ids a `count`/`limit` streaming loop processes: each id is handled
(detail-fetched and yielded), then the loop breaks when
`limit and count >= limit` holds for the incremented count. -/
def idsProcessed : List String → Option Nat → Nat → List String
  | [], _, _ => []
  | id :: rest, limit, count =>
    id :: (if limitReached limit (count + 1) then []
           else idsProcessed rest limit (count + 1))

/-- `iter_llm_projection(client, query, label_ids, page_size, limit,
prefer_plain)` (lines 431-444), run over the id sequence the listing
produces; `server` maps a message id to the detail-fetch response. -/
def iter_llm_projection (b64 : String → List Nat)
    (utf8 : List Nat → String) (att : String → Nat × Option String)
    (server : String → Nat × RawMessage) (prefer_plain : Bool) :
    List String → Option Nat → Nat → List (Except PyError LlmProjection)
  | [], _, _ => []
  | id :: rest, limit, count =>
    fetch_llm_projection b64 utf8 att (server id) prefer_plain ::
      (if limitReached limit (count + 1) then []
       else iter_llm_projection b64 utf8 att server prefer_plain rest limit
         (count + 1))

/-- `iter_messages_normalized(...)` (lines 312-325): fetch full then
normalize, under the same count/limit loop. -/
def iter_messages_normalized (b64 : String → List Nat)
    (utf8 : List Nat → String) (server : String → Nat × RawMessage) :
    List String → Option Nat → Nat → List (Except PyError NormalizedMessage)
  | [], _, _ => []
  | id :: rest, limit, count =>
    (match fetch_message_full (server id) with
     | Except.error e => Except.error e
     | Except.ok full => normalize_message b64 utf8 full) ::
      (if limitReached limit (count + 1) then []
       else iter_messages_normalized b64 utf8 server rest limit (count + 1))

/-- `iter_messages_full_no_blobs(...)` (lines 281-307): fetch full then
strip attachment blobs, under the same count/limit loop. -/
def iter_messages_full_no_blobs (b64 : String → List Nat)
    (utf8 : List Nat → String) (decode_text : Bool)
    (max_text_chars : Option Nat) (include_attachments_meta : Bool)
    (server : String → Nat × RawMessage) :
    List String → Option Nat → Nat → List (Except PyError StrippedMessage)
  | [], _, _ => []
  | id :: rest, limit, count =>
    (match fetch_message_full (server id) with
     | Except.error e => Except.error e
     | Except.ok full =>
       Except.ok (strip_message_full_keep_blobs_out b64 utf8 decode_text
         max_text_chars include_attachments_meta full)) ::
      (if limitReached limit (count + 1) then []
       else iter_messages_full_no_blobs b64 utf8 decode_text max_text_chars
         include_attachments_meta server rest limit (count + 1))

/-! Concrete inputs used to exercise the definitions. -/

/-- Response-status trace 503, 503, 200, 200, ... -/
def c1resps : Nat → Nat := fun i => if i < 2 then 503 else 200

/-- A concrete stand-in decoder from base64url text to bytes (any function
of this type instantiates the abstract parameter). -/
def b64c : String → List Nat := fun s => s.toList.map Char.toNat

/-- A concrete stand-in bytes-to-text decoder. -/
def utf8c : List Nat → String := fun l => (l.map Char.ofNat).asString

/-- A concrete attachments endpoint that always reports 404. -/
def attc : String → Nat × Option String := fun _ => (404, none)

/-- A single page carrying the empty-string `nextPageToken`. -/
def cexPages : List (PageResp Nat) :=
  [{ items := [1], nextPageToken := some "" }]

/-- Two headers with the identical name string. -/
def dupHeaders : List (String × String) :=
  [("Subject", "Hi"), ("Subject", "Lo")]

/-- The case-insensitive duplicate scenario of the specification. -/
def caseHeaders : List (String × String) :=
  [("Subject", "Hi"), ("subject", "Lo")]

/-- A multipart part that carries a filename (hence attachment-like) with
one attachment-like image child. -/
def cexTreeC5 : ContentPart :=
  ContentPart.node (some "multipart/mixed") (some "x") []
    { data := none, attachmentId := none, size := none }
    (ContentPartList.cons
      (ContentPart.node (some "image/png") none []
        { data := some "QQ", attachmentId := some "a1", size := some 5 }
        ContentPartList.nil)
      ContentPartList.nil)

/-- A message with no `internalDate` field. -/
def msgNoDate : RawMessage :=
  { id := some "m1", threadId := none, historyId := none
    internalDate := none, sizeEstimate := none, snippet := none
    labelIds := [], payload := none }

/-- A message whose `internalDate` is not parseable as an integer. -/
def msgBadDate : RawMessage :=
  { id := some "m2", threadId := none, historyId := none
    internalDate := some "abc", sizeEstimate := none, snippet := none
    labelIds := [], payload := none }

/-- A text/plain part whose decoded text has 15 characters (under
`b64c`/`utf8c`, which decode a string to its own characters). -/
def c6node : ContentPart :=
  ContentPart.node (some "text/plain") none []
    { data := some "abcdefghijklmno", attachmentId := none, size := none }
    ContentPartList.nil

/-- A detail-fetch server answering every id with a 200 response carrying
`msgNoDate`. -/
def serverc : String → Nat × RawMessage := fun _ => (200, msgNoDate)

/-! ## Theorems -/

theorem backoff_get_go_stop (resps : Nat → Nat) (mr a : Nat) (ha : a ≤ mr)
    (h : resps a ∉ TRANSIENT_STATUSES) :
    backoff_get_go resps mr a = (a + 1, Except.ok a) := by
  rw [backoff_get_go]
  simp [ha, h]

theorem backoff_get_go_step (resps : Nat → Nat) (mr a : Nat) (ha : a ≤ mr)
    (h : resps a ∈ TRANSIENT_STATUSES) :
    backoff_get_go resps mr a = backoff_get_go resps mr (a + 1) := by
  conv_lhs => rw [backoff_get_go]
  simp [ha, h]

theorem backoff_get_go_first (resps : Nat → Nat) (mr : Nat) :
    ∀ (n a k : Nat), a + n = k → k ≤ mr →
    (∀ j, a ≤ j → j < k → resps j ∈ TRANSIENT_STATUSES) →
    resps k ∉ TRANSIENT_STATUSES →
    backoff_get_go resps mr a = (k + 1, Except.ok k) := by
  intro n
  induction n with
  | zero =>
    intro a k hak hk _ hres
    have : a = k := by omega
    subst this
    exact backoff_get_go_stop resps mr a hk hres
  | succ n ih =>
    intro a k hak hk hbefore hres
    have hak' : a < k := by omega
    rw [backoff_get_go_step resps mr a (by omega)
      (hbefore a (Nat.le_refl a) hak')]
    exact ih (a + 1) k (by omega) hk
      (fun j hj hjk => hbefore j (by omega) hjk) hres

theorem backoff_get_go_exhaust (resps : Nat → Nat) (mr : Nat) :
    ∀ (n a : Nat), a + n = mr + 1 →
    (∀ j, a ≤ j → j ≤ mr → resps j ∈ TRANSIENT_STATUSES) →
    resps mr ∈ TRANSIENT_STATUSES →
    backoff_get_go resps mr a =
      (mr + 1, Except.error (PyError.httpStatus (resps mr))) := by
  intro n
  induction n with
  | zero =>
    intro a hak _ hT
    have ha : ¬ a ≤ mr := by omega
    rw [backoff_get_go]
    have h46 : 400 ≤ resps mr ∧ resps mr < 600 := by
      simp [TRANSIENT_STATUSES] at hT
      rcases hT with h | h | h | h <;> omega
    simp [ha, raise_for_status, h46.1, h46.2]
  | succ n ih =>
    intro a hak hall hT
    rw [backoff_get_go_step resps mr a (by omega)
      (hall a (Nat.le_refl a) (by omega))]
    exact ih (a + 1) (by omega) (fun j hj hjm => hall j (by omega) hjm) hT

/-- C1: `_backoff_get` issues requests one at a time and returns the first
response whose status is outside {429, 500, 502, 503}, issuing exactly
`k + 1` requests when the first non-transient response is at index `k`
(`k ≤ max_retries`); when all `max_retries + 1` responses are transient it
raises the HTTP status error of the final response instead of returning
it. -/
theorem backoff_transient_retry_spec (resps : Nat → Nat) (max_retries : Nat) :
    (∀ k, k ≤ max_retries →
      (∀ j, j < k → resps j ∈ TRANSIENT_STATUSES) →
      resps k ∉ TRANSIENT_STATUSES →
      backoff_get resps max_retries = (k + 1, Except.ok k))
    ∧ ((∀ j, j ≤ max_retries → resps j ∈ TRANSIENT_STATUSES) →
      backoff_get resps max_retries =
        (max_retries + 1,
         Except.error (PyError.httpStatus (resps max_retries)))) := by
  constructor
  · intro k hk hbefore hres
    exact backoff_get_go_first resps max_retries k 0 k (by omega) hk
      (fun j _ hj => hbefore j hj) hres
  · intro hall
    exact backoff_get_go_exhaust resps max_retries (max_retries + 1) 0
      (by omega) (fun j _ hj => hall j hj)
      (hall max_retries (Nat.le_refl _))

/-- Witness for C1: on the response trace 503, 503, 200 with the default
`max_retries = 5`, exactly 3 requests are issued and the third (200)
response is returned. -/
theorem backoff_transient_retry_witness :
    backoff_get c1resps 5 = (3, Except.ok 2) ∧ c1resps 2 = 200 :=
  ⟨(backoff_transient_retry_spec c1resps 5).1 2 (by decide) (by decide)
    (by decide), by decide⟩

/-- C2 counterexample: on a response trace whose single page carries the
nextPageToken `""`, `_paginate` terminates there and requests no next page,
although the page does carry a nextPageToken — refuting "a next page is
requested iff the page carries a nextPageToken" and "iteration terminates
exactly on the first page whose nextPageToken is absent". -/
theorem paginate_empty_token_cex :
    paginate cexPages =
      { yielded := [1], requests := 1, tokensSent := [], finished := true }
    ∧ cexPages.head?.map PageResp.nextPageToken = some (some "") := by
  constructor
  · rfl
  · rfl

/-- C2 (amended): the items `_paginate` yields are the concatenation of the
`itemKey` arrays of the fetched pages in server order (in-page order
preserved); a next page is requested, with `params[pageTokenParam]` set to
the returned token, iff the page carries a non-empty `nextPageToken`; and
iteration terminates exactly on the first page whose `nextPageToken` is
absent or empty (`finished = false` records that the whole supplied trace
was consumed without such a page). -/
theorem paginate_token_spec {α : Type} (pages : List (PageResp α)) :
    match firstExhaustIdx pages with
    | some k =>
      paginate pages =
        { yielded := ((pages.take (k + 1)).map PageResp.items).flatten
          requests := k + 1
          tokensSent := (pages.take k).map (fun p => p.nextPageToken.getD "")
          finished := true }
    | none =>
      paginate pages =
        { yielded := (pages.map PageResp.items).flatten
          requests := pages.length
          tokensSent := pages.map (fun p => p.nextPageToken.getD "")
          finished := false } := by
  induction pages with
  | nil => simp [firstExhaustIdx, paginate]
  | cons p rest ih =>
    rw [firstExhaustIdx]
    by_cases h : tokenTruthy p.nextPageToken
    · rw [if_pos h]
      cases hr : firstExhaustIdx rest with
      | some k =>
        rw [hr] at ih
        simp only [Option.map_some']
        simp only [paginate, h, if_true]
        rw [ih]
        simp [List.take_succ_cons]
      | none =>
        rw [hr] at ih
        simp only [Option.map_none']
        simp only [paginate, h, if_true]
        rw [ih]
        simp
    · rw [if_neg h]
      simp [paginate, h]

theorem dictInsert_fresh (m : List (String × String)) (k v : String)
    (hk : ∀ q ∈ m, q.1 ≠ k) : dictInsert m k v = m ++ [(k, v)] := by
  have hany : m.any (fun p => p.1 == k) = false := by
    simp only [List.any_eq_false]
    intro p hp
    simpa using hk p hp
  simp [dictInsert, hany]

theorem foldl_dictInsert_of_nodup :
    ∀ (hs m : List (String × String)),
    (∀ p ∈ hs, ∀ q ∈ m, q.1 ≠ p.1) → (hs.map Prod.fst).Nodup →
    hs.foldl (fun m h => dictInsert m h.1 h.2) m = m ++ hs := by
  intro hs
  induction hs with
  | nil => intro m _ _; simp
  | cons a rest ih =>
    intro m hdisj hnd
    simp only [List.foldl_cons]
    rw [dictInsert_fresh m a.1 a.2
      (fun q hq => hdisj a (List.mem_cons_self a rest) q hq)]
    simp only [List.map_cons, List.nodup_cons] at hnd
    rw [ih (m ++ [(a.1, a.2)])
      (by
        intro p hp q hq
        rcases List.mem_append.mp hq with hq | hq
        · exact hdisj p (List.mem_cons_of_mem a hp) q hq
        · have : q = (a.1, a.2) := by simpa using hq
          subst this
          intro hcontr
          exact hnd.1 (hcontr ▸ List.mem_map_of_mem Prod.fst hp))
      hnd.2]
    simp

theorem headers_to_map_of_nodup (hs : List (String × String))
    (hnd : (hs.map Prod.fst).Nodup) : headers_to_map hs = hs := by
  have := foldl_dictInsert_of_nodup hs [] (by simp) hnd
  simpa [headers_to_map] using this

/-- C3 counterexample: for the exact-duplicate-name list
`[("Subject","Hi"), ("Subject","Lo")]`, the dict built by
`_headers_to_map` keeps the last value, so the lookup performed by `_pick`
returns "Lo" — not the first header's "Hi" that a first-match-in-list-order
lookup would return. -/
theorem pick_duplicate_name_cex :
    pick (headers_to_map dupHeaders) "Subject" = some "Lo"
    ∧ firstMatchLookup dupHeaders "Subject" = some "Hi" := by
  constructor
  · rfl
  · rfl

/-- C3 (amended): for every header list in which no two headers have the
identical name string (case-insensitively equal but distinct names are
allowed), the lookup performed by `_headers_to_map` followed by `_pick`
returns the value of the first header in list order whose name matches the
lookup name case-insensitively, or none when no name matches; when two
headers share the identical name string the map keeps the position of the
first but the value of the last, so the lookup returns the last value. -/
theorem pick_first_match_of_nodup (hs : List (String × String))
    (name : String) (hnd : (hs.map Prod.fst).Nodup) :
    pick (headers_to_map hs) name = firstMatchLookup hs name := by
  rw [headers_to_map_of_nodup hs hnd]
  rfl

/-- Witness for C3 at the specification's scenario: the list
`[("Subject","Hi"), ("subject","Lo")]` has pairwise-distinct name strings,
and looking up "Subject" returns "Hi". -/
theorem pick_first_match_witness :
    pick (headers_to_map caseHeaders) "Subject" = some "Hi" :=
  (pick_first_match_of_nodup caseHeaders "Subject" (by decide)).trans
    (by decide)

mutual

theorem extractWalk_eq (b64 : String → List Nat) (p : ContentPart) :
    extractWalk b64 p =
      (((preorderNodes p).filterMap plainSel).map b64,
       ((preorderNodes p).filterMap htmlSel).map b64) := by
  cases p with
  | node mt fn hd bd ps =>
    simp only [extractWalk, preorderNodes]
    rw [extractWalkList_eq b64 ps]
    simp only [List.filterMap_cons]
    cases hdata : bd.data with
    | none =>
      simp [plainSel, htmlSel, isPlainDataNode, isHtmlDataNode, hdata]
    | some d =>
      by_cases hne : d = "" <;>
      by_cases hm : strStartsWith (mt.getD "") "multipart/" <;>
      by_cases hp : strStartsWith (mt.getD "") "text/plain" <;>
      by_cases hh : strStartsWith (mt.getD "") "text/html" <;>
        simp [plainSel, htmlSel, isPlainDataNode, isHtmlDataNode, hdata,
          hne, hm, hp, hh]

theorem extractWalkList_eq (b64 : String → List Nat) (ps : ContentPartList) :
    extractWalkList b64 ps =
      (((preorderNodesList ps).filterMap plainSel).map b64,
       ((preorderNodesList ps).filterMap htmlSel).map b64) := by
  cases ps with
  | nil => simp [extractWalkList, preorderNodesList]
  | cons p rest =>
    simp only [extractWalkList, preorderNodesList]
    rw [extractWalk_eq b64 p, extractWalkList_eq b64 rest]
    simp [List.filterMap_append]

end

theorem plainSel_eq_none_iff (p : ContentPart) :
    plainSel p = none ↔ isPlainDataNode p = false := by
  cases p with
  | node mt fn hd bd ps =>
    cases hdata : bd.data with
    | none => simp [plainSel, isPlainDataNode, hdata]
    | some d =>
      by_cases hcl : isPlainDataNode (ContentPart.node mt fn hd bd ps) <;>
        simp [plainSel, hcl, hdata]

theorem htmlSel_eq_none_iff (p : ContentPart) :
    htmlSel p = none ↔ isHtmlDataNode p = false := by
  cases p with
  | node mt fn hd bd ps =>
    cases hdata : bd.data with
    | none => simp [htmlSel, isHtmlDataNode, hdata]
    | some d =>
      by_cases hcl : isHtmlDataNode (ContentPart.node mt fn hd bd ps) <;>
        simp [htmlSel, hcl, hdata]

/-- C4: `extract_bodies` is a pure function of the tree; `body_text` is
none exactly when no node with (non-empty) inline body data and a
non-multipart mimeType starting with text/plain exists, and otherwise is
the UTF-8 decode of the newline-joined base64url-decoded contents of those
nodes in depth-first pre-order; the same holds for `body_html` with
text/html nodes. -/
theorem extract_bodies_spec (b64 : String → List Nat)
    (utf8 : List Nat → String) (t : ContentPart) :
    extract_bodies b64 utf8 t =
      ((if plainDatas t = [] then none
        else some (utf8 (joinBytes ((plainDatas t).map b64)))),
       (if htmlDatas t = [] then none
        else some (utf8 (joinBytes ((htmlDatas t).map b64)))))
    ∧ ((extract_bodies b64 utf8 t).1 = none ↔
        ∀ p ∈ preorderNodes t, isPlainDataNode p = false)
    ∧ ((extract_bodies b64 utf8 t).2 = none ↔
        ∀ p ∈ preorderNodes t, isHtmlDataNode p = false) := by
  have hmain : extract_bodies b64 utf8 t =
      ((if plainDatas t = [] then none
        else some (utf8 (joinBytes ((plainDatas t).map b64)))),
       (if htmlDatas t = [] then none
        else some (utf8 (joinBytes ((htmlDatas t).map b64))))) := by
    unfold extract_bodies
    rw [extractWalk_eq]
    simp [plainDatas, htmlDatas, List.map_eq_nil_iff]
  refine ⟨hmain, ?_, ?_⟩
  · rw [hmain]
    constructor
    · intro h
      by_cases hempty : plainDatas t = []
      · intro p hp
        have := (List.filterMap_eq_nil_iff.mp hempty) p hp
        exact (plainSel_eq_none_iff p).mp this
      · simp [hempty] at h
    · intro h
      have hempty : plainDatas t = [] := by
        apply List.filterMap_eq_nil_iff.mpr
        intro p hp
        exact (plainSel_eq_none_iff p).mpr (h p hp)
      simp [hempty]
  · rw [hmain]
    constructor
    · intro h
      by_cases hempty : htmlDatas t = []
      · intro p hp
        have := (List.filterMap_eq_nil_iff.mp hempty) p hp
        exact (htmlSel_eq_none_iff p).mp this
      · simp [hempty] at h
    · intro h
      have hempty : htmlDatas t = [] := by
        apply List.filterMap_eq_nil_iff.mpr
        intro p hp
        exact (htmlSel_eq_none_iff p).mpr (h p hp)
      simp [hempty]

mutual

theorem strip_meta_eq (b64 : String → List Nat) (utf8 : List Nat → String)
    (dt : Bool) (mtc : Option Nat) (p : ContentPart) :
    (strip_attachments_preserve_meta b64 utf8 dt mtc true p).2 =
      postMetaList p := by
  cases p with
  | node mt fn hd bd ps =>
    have hrec := strip_meta_eq_list b64 utf8 dt mtc ps
    simp only [strip_attachments_preserve_meta, postMetaList,
      is_attachment_like, attachMetaOf]
    split_ifs <;> simp_all

theorem strip_meta_eq_list (b64 : String → List Nat)
    (utf8 : List Nat → String) (dt : Bool) (mtc : Option Nat)
    (ps : ContentPartList) :
    (strip_attachments_list b64 utf8 dt mtc true ps).2 =
      postMetaListF ps := by
  cases ps with
  | nil => simp [strip_attachments_list, postMetaListF]
  | cons p rest =>
    have h1 := strip_meta_eq b64 utf8 dt mtc p
    have h2 := strip_meta_eq_list b64 utf8 dt mtc rest
    simp only [strip_attachments_list, postMetaListF]
    rw [h1, h2]

end

theorem boolResolve (a b c : Bool) (h : a = false → b = false → c = true) :
    (a = true ∨ b = true) ∨ c = true := by
  cases a <;> cases b <;> simp_all

mutual

theorem strip_noData (b64 : String → List Nat) (utf8 : List Nat → String)
    (dt : Bool) (mtc : Option Nat) (cm : Bool) (p : ContentPart) :
    noDataOnAttachLike
      (strip_attachments_preserve_meta b64 utf8 dt mtc cm p).1 = true := by
  cases p with
  | node mt fn hd bd ps =>
    have hrec := strip_noData_list b64 utf8 dt mtc cm ps
    simp only [strip_attachments_preserve_meta]
    split_ifs with h1 h2 <;> simp_all [noDataOnAttachLike]
    exact boolResolve _ _ _ h1.2

theorem strip_noData_list (b64 : String → List Nat)
    (utf8 : List Nat → String) (dt : Bool) (mtc : Option Nat) (cm : Bool)
    (ps : ContentPartList) :
    noDataOnAttachLikeF
      (strip_attachments_list b64 utf8 dt mtc cm ps).1 = true := by
  cases ps with
  | nil => simp [strip_attachments_list, noDataOnAttachLikeF]
  | cons p rest =>
    have h1 := strip_noData b64 utf8 dt mtc cm p
    have h2 := strip_noData_list b64 utf8 dt mtc cm rest
    simp only [strip_attachments_list, noDataOnAttachLikeF]
    simp_all

end

mutual

theorem postMetaList_length (p : ContentPart) :
    (postMetaList p).length = countAttachLike p := by
  cases p with
  | node mt fn hd bd ps =>
    have hrec := postMetaListF_length ps
    simp only [postMetaList, countAttachLike, preorderNodes,
      List.filter_cons]
    by_cases h : is_attachment_like (ContentPart.node mt fn hd bd ps) <;>
      simp_all [countAttachLikeF, Nat.add_comm]

theorem postMetaListF_length (ps : ContentPartList) :
    (postMetaListF ps).length = countAttachLikeF ps := by
  cases ps with
  | nil => simp [postMetaListF, countAttachLikeF, preorderNodesList]
  | cons p rest =>
    have h1 := postMetaList_length p
    have h2 := postMetaListF_length rest
    simp only [postMetaListF, countAttachLikeF, preorderNodesList,
      List.filter_append, List.length_append]
    simp_all [countAttachLike, countAttachLikeF]

end

/-- C5 counterexample: on a tree whose root is itself attachment-like (a
multipart part carrying a filename) with an attachment-like child, the
accumulated `attachments_meta` list is child-before-parent — the reverse
of the claimed depth-first pre-order. -/
theorem strip_meta_order_cex :
    (strip_attachments_preserve_meta b64c utf8c true (some 50000) true
        cexTreeC5).2 ≠ preMetaList cexTreeC5 := by
  decide

/-- C5 (amended): the output of `_strip_attachments_preserve_meta` carries
no body `data` field on any attachment-like node and marks every such
node's body with `_stripped = true`; when metadata collection is requested
the `attachments_meta` list contains exactly one `AttachmentMeta` record
per attachment-like node, appearing in depth-first post-order (each node's
record after the records of its children's subtrees), so its length equals
the number of attachment-like nodes. -/
theorem strip_attachments_spec (b64 : String → List Nat)
    (utf8 : List Nat → String) (dt : Bool) (mtc : Option Nat)
    (msg : RawMessage) :
    noDataOnAttachLike
      (strip_message_full_keep_blobs_out b64 utf8 dt mtc true msg).payload
      = true
    ∧ (strip_message_full_keep_blobs_out b64 utf8 dt mtc true
        msg).attachments_meta
      = some (postMetaList (msg.payload.getD emptyContentPart))
    ∧ (postMetaList (msg.payload.getD emptyContentPart)).length
      = countAttachLike (msg.payload.getD emptyContentPart) := by
  refine ⟨?_, ?_, postMetaList_length _⟩
  · simp [strip_message_full_keep_blobs_out, strip_noData]
  · simp [strip_message_full_keep_blobs_out, strip_meta_eq]

theorem asString_length (l : List Char) : l.asString.length = l.length := rfl

theorem strTake_length (s : String) (n : Nat) :
    (strTake s n).length = min n s.length := by
  show ((s.toList.take n).asString).length = min n s.length
  rw [asString_length, List.length_take]
  rfl

/-- C6: for a text node (text/plain or text/html, empty filename hence not
attachment-like) with non-empty inline data, processed with decoding
requested and bound `maxTextChars = M`: the output body has
`decodedText` equal to the decoded text truncated to `M` characters with
`_truncated = true` when the decoded length exceeds `M`, and the full
decoded text with `_truncated` absent otherwise; `_decoded_len` is the
pre-truncation byte length of the decoded payload, and the raw `data`
field is removed. -/
theorem strip_text_truncation_spec (b64 : String → List Nat)
    (utf8 : List Nat → String) (cm : Bool) (mt fn : Option String)
    (hd : List (String × String)) (bd : PartBody) (ps : ContentPartList)
    (M : Nat) (d : String)
    (htext : strStartsWith (lowerStr (mt.getD "")) "text/plain" = true ∨
             strStartsWith (lowerStr (mt.getD "")) "text/html" = true)
    (hfn : fn.getD "" = "")
    (hdata : bd.data = some d) (hne : d ≠ "") :
    ((strip_attachments_preserve_meta b64 utf8 true (some M)
        cm (ContentPart.node mt fn hd bd ps)).1).body =
      { data := none
        attachmentId := bd.attachmentId
        size := bd.size
        strippedFlag := false
        decodedText := some (if M < (utf8 (b64 d)).length
                             then strTake (utf8 (b64 d)) M
                             else utf8 (b64 d))
        decodedLen := some (b64 d).length
        truncatedFlag := decide (M < (utf8 (b64 d)).length) }
    ∧ (M < (utf8 (b64 d)).length →
        (strTake (utf8 (b64 d)) M).length = M) := by
  constructor
  · simp only [strip_attachments_preserve_meta]
    split_ifs <;> rcases htext with h | h <;> simp_all [OutPart.body]
  · intro hM
    rw [strTake_length]
    omega

/-- Witness for C6 at the specification's scenario: `maxTextChars = 10`
and a 15-character decoded text yield `decodedText` of length 10 (here
"abcdefghij"), `_truncated = true`, `_decoded_len = 15`, and no raw
`data`. -/
theorem strip_text_truncation_witness :
    ((strip_attachments_preserve_meta b64c utf8c true (some 10) true
        c6node).1).body =
      { data := none, attachmentId := none, size := none
        strippedFlag := false, decodedText := some "abcdefghij"
        decodedLen := some 15, truncatedFlag := true } :=
  ((strip_text_truncation_spec b64c utf8c true (some "text/plain") none []
      { data := some "abcdefghijklmno", attachmentId := none, size := none }
      ContentPartList.nil 10 "abcdefghijklmno"
      (Or.inl (by decide)) rfl rfl (by decide)).1).trans (by decide)

/-- C7 counterexample: on a message whose `internalDate` is the
unparseable string "abc", `normalize_message` raises `ValueError` instead
of returning 0. -/
theorem normalize_unparseable_date_cex :
    normalize_message b64c utf8c msgBadDate
      = Except.error PyError.valueError := rfl

/-- C7 (amended): `internal_date_ms` parses the `internalDate` string as
an integer and defaults to 0 when the field is absent; when the field is
present but not parseable as an integer the call raises `ValueError`
(it does not return 0).  The same holds for `fetch_llm_projection` on a
200 detail response. -/
theorem internal_date_ms_spec (b64 : String → List Nat)
    (utf8 : List Nat → String) (att : String → Nat × Option String)
    (pp : Bool) (msg : RawMessage) :
    (msg.internalDate = none →
      (normalize_message b64 utf8 msg).map NormalizedMessage.internal_date_ms
        = Except.ok 0
      ∧ (fetch_llm_projection b64 utf8 att (200, msg) pp).map
          LlmProjection.internal_date_ms = Except.ok 0)
    ∧ (∀ s n, msg.internalDate = some s → pyIntParse s = some n →
      (normalize_message b64 utf8 msg).map NormalizedMessage.internal_date_ms
        = Except.ok n
      ∧ (fetch_llm_projection b64 utf8 att (200, msg) pp).map
          LlmProjection.internal_date_ms = Except.ok n)
    ∧ (∀ s, msg.internalDate = some s → pyIntParse s = none →
      normalize_message b64 utf8 msg = Except.error PyError.valueError
      ∧ fetch_llm_projection b64 utf8 att (200, msg) pp
        = Except.error PyError.valueError) := by
  have h200 : fetch_message_full (200, msg) = Except.ok msg := rfl
  refine ⟨?_, ?_, ?_⟩
  · intro h
    constructor
    · simp [normalize_message, internalDateMs, h, Except.map,
        show pyIntParse "0" = some 0 from rfl]
    · simp [fetch_llm_projection, h200, internalDateMs, h, Except.map,
        show pyIntParse "0" = some 0 from rfl]
  · intro s n hs hn
    constructor
    · simp [normalize_message, internalDateMs, hs, hn, Except.map]
    · simp [fetch_llm_projection, h200, internalDateMs, hs, hn, Except.map]
  · intro s hs hn
    constructor
    · simp [normalize_message, internalDateMs, hs, hn]
    · simp [fetch_llm_projection, h200, internalDateMs, hs, hn]

/-- Witness for C7: a message with no `internalDate` field normalizes with
`internal_date_ms = 0`. -/
theorem internal_date_ms_witness :
    (normalize_message b64c utf8c msgNoDate).map
      NormalizedMessage.internal_date_ms = Except.ok 0 :=
  ((internal_date_ms_spec b64c utf8c attc true msgNoDate).1 rfl).1

/-- C8 counterexample: the attachment-data fetch used by the
attachment-aware body extraction also silently swallows a remote failure:
a 404 response is masked as the successful-but-empty result `none`,
exactly as `get_profile_history_id` does — refuting that
`getProfileHistoryId` is the only operation that swallows. -/
theorem attachment_fetch_swallow_cex :
    fetch_attachment_data_b64 (404, some "zz") = none
    ∧ get_profile_history_id (404, some "h1") = none := ⟨rfl, rfl⟩

/-- C8 (amended): `get_profile_history_id` AND `fetch_attachment_data_b64`
both return the queried body field on a 200 response and `none` on every
other status (so `getProfileHistoryId` is not the only swallowing
operation); `fetch_message_full` instead propagates a 4xx/5xx detail
response as a raised HTTP status error. -/
theorem error_propagation_spec (s : Nat) (b : Option String)
    (m : RawMessage) (h4 : 400 ≤ s) (h6 : s < 600) :
    get_profile_history_id (s, b) = (if s = 200 then b else none)
    ∧ fetch_attachment_data_b64 (s, b) = (if s = 200 then b else none)
    ∧ fetch_message_full (s, m) = Except.error (PyError.httpStatus s) := by
  refine ⟨rfl, rfl, ?_⟩
  simp [fetch_message_full, raise_for_status, h4, h6]

/-- Witness for C8 at status 404. -/
theorem error_propagation_witness :
    fetch_attachment_data_b64 (404, some "zz2") = none
    ∧ fetch_message_full (404, msgNoDate)
      = Except.error (PyError.httpStatus 404) := by
  have h := error_propagation_spec 404 (some "zz2") msgNoDate
    (by decide) (by decide)
  exact ⟨h.2.1.trans rfl, h.2.2⟩

theorem idsProcessed_some : ∀ (ids : List String) (n count : Nat),
    count < n → idsProcessed ids (some n) count = ids.take (n - count) := by
  intro ids
  induction ids with
  | nil => intro n count _; simp [idsProcessed]
  | cons id rest ih =>
    intro n count h
    have hn0 : n ≠ 0 := by omega
    by_cases hstop : n ≤ count + 1
    · have hlr : limitReached (some n) (count + 1) = true := by
        simp [limitReached, hn0]
        omega
      have htake : n - count = 1 := by omega
      simp [idsProcessed, hlr, htake]
    · have hlr : limitReached (some n) (count + 1) = false := by
        simp [limitReached, hn0]
        omega
      have hsub : n - count = (n - (count + 1)) + 1 := by omega
      simp [idsProcessed, hlr, ih n (count + 1) (by omega), hsub]

theorem idsProcessed_none : ∀ (ids : List String) (count : Nat),
    idsProcessed ids none count = ids := by
  intro ids
  induction ids with
  | nil => intro count; simp [idsProcessed]
  | cons id rest ih => intro count; simp [idsProcessed, limitReached, ih]

theorem idsProcessed_zero : ∀ (ids : List String) (count : Nat),
    idsProcessed ids (some 0) count = ids := by
  intro ids
  induction ids with
  | nil => intro count; simp [idsProcessed]
  | cons id rest ih => intro count; simp [idsProcessed, limitReached, ih]

theorem iter_llm_projection_eq_map (b64 : String → List Nat)
    (utf8 : List Nat → String) (att : String → Nat × Option String)
    (server : String → Nat × RawMessage) (pp : Bool) :
    ∀ (ids : List String) (limit : Option Nat) (count : Nat),
    iter_llm_projection b64 utf8 att server pp ids limit count =
      (idsProcessed ids limit count).map
        (fun id => fetch_llm_projection b64 utf8 att (server id) pp) := by
  intro ids
  induction ids with
  | nil => intro limit count; simp [iter_llm_projection, idsProcessed]
  | cons id rest ih =>
    intro limit count
    by_cases hlr : limitReached limit (count + 1) <;>
      simp [iter_llm_projection, idsProcessed, hlr, ih]

theorem iter_messages_normalized_eq_map (b64 : String → List Nat)
    (utf8 : List Nat → String) (server : String → Nat × RawMessage) :
    ∀ (ids : List String) (limit : Option Nat) (count : Nat),
    iter_messages_normalized b64 utf8 server ids limit count =
      (idsProcessed ids limit count).map (fun id =>
        match fetch_message_full (server id) with
        | Except.error e => Except.error e
        | Except.ok full => normalize_message b64 utf8 full) := by
  intro ids
  induction ids with
  | nil => intro limit count; simp [iter_messages_normalized, idsProcessed]
  | cons id rest ih =>
    intro limit count
    by_cases hlr : limitReached limit (count + 1) <;>
      simp [iter_messages_normalized, idsProcessed, hlr, ih]

theorem iter_messages_full_no_blobs_eq_map (b64 : String → List Nat)
    (utf8 : List Nat → String) (dt : Bool) (mtc : Option Nat) (iam : Bool)
    (server : String → Nat × RawMessage) :
    ∀ (ids : List String) (limit : Option Nat) (count : Nat),
    iter_messages_full_no_blobs b64 utf8 dt mtc iam server ids limit count =
      (idsProcessed ids limit count).map (fun id =>
        match fetch_message_full (server id) with
        | Except.error e => Except.error e
        | Except.ok full =>
          Except.ok (strip_message_full_keep_blobs_out b64 utf8 dt mtc iam
            full)) := by
  intro ids
  induction ids with
  | nil => intro limit count; simp [iter_messages_full_no_blobs, idsProcessed]
  | cons id rest ih =>
    intro limit count
    by_cases hlr : limitReached limit (count + 1) <;>
      simp [iter_messages_full_no_blobs, idsProcessed, hlr, ih]

/-- C9: for a positive `limit = n` over an id sequence of at least `n`
ids, the streaming LLM projection performs exactly `n` message-detail
fetches and yields exactly `n` items — the yielded list is the projection
of exactly the first `n` ids, so no detail fetch happens beyond the
n-th id. -/
theorem iter_llm_projection_limit_spec (b64 : String → List Nat)
    (utf8 : List Nat → String) (att : String → Nat × Option String)
    (server : String → Nat × RawMessage) (pp : Bool) (ids : List String)
    (n : Nat) (h0 : 0 < n) (hlen : n ≤ ids.length) :
    iter_llm_projection b64 utf8 att server pp ids (some n) 0 =
      (ids.take n).map
        (fun id => fetch_llm_projection b64 utf8 att (server id) pp)
    ∧ (iter_llm_projection b64 utf8 att server pp ids (some n) 0).length
      = n := by
  have h := iter_llm_projection_eq_map b64 utf8 att server pp ids (some n) 0
  rw [idsProcessed_some ids n 0 h0] at h
  simp only [Nat.sub_zero] at h
  refine ⟨h, ?_⟩
  rw [h]
  simp [List.length_take]
  omega

/-- Witness for C9 at the specification's scenario: `limit = 1` over a
query matching 3 messages yields exactly one item, the projection of the
first id only. -/
theorem iter_llm_projection_limit_witness :
    iter_llm_projection b64c utf8c attc serverc true ["a", "b", "c"]
      (some 1) 0 = [fetch_llm_projection b64c utf8c attc (serverc "a") true]
    ∧ (iter_llm_projection b64c utf8c attc serverc true ["a", "b", "c"]
      (some 1) 0).length = 1 := by
  have h := iter_llm_projection_limit_spec b64c utf8c attc serverc true
    ["a", "b", "c"] 1 (by decide) (by decide)
  exact ⟨h.1.trans rfl, h.2⟩

/-- C10: for each streaming operation (`iter_llm_projection`,
`iter_messages_normalized`, `iter_messages_full_no_blobs`), `limit = 0`
behaves exactly like no limit: the stop condition treats the falsy limit
as absent, so the iterator fetches and yields every message of the id
sequence rather than yielding zero items. -/
theorem limit_zero_spec (b64 : String → List Nat)
    (utf8 : List Nat → String) (att : String → Nat × Option String)
    (server : String → Nat × RawMessage) (pp dt iam : Bool)
    (mtc : Option Nat) (ids : List String) :
    (iter_llm_projection b64 utf8 att server pp ids (some 0) 0 =
       iter_llm_projection b64 utf8 att server pp ids none 0
     ∧ (iter_llm_projection b64 utf8 att server pp ids none 0).length
       = ids.length)
    ∧ (iter_messages_normalized b64 utf8 server ids (some 0) 0 =
       iter_messages_normalized b64 utf8 server ids none 0
     ∧ (iter_messages_normalized b64 utf8 server ids none 0).length
       = ids.length)
    ∧ (iter_messages_full_no_blobs b64 utf8 dt mtc iam server ids
        (some 0) 0 =
       iter_messages_full_no_blobs b64 utf8 dt mtc iam server ids none 0
     ∧ (iter_messages_full_no_blobs b64 utf8 dt mtc iam server ids
        none 0).length = ids.length) := by
  refine ⟨⟨?_, ?_⟩, ⟨?_, ?_⟩, ⟨?_, ?_⟩⟩
  · rw [iter_llm_projection_eq_map, iter_llm_projection_eq_map,
      idsProcessed_zero, idsProcessed_none]
  · rw [iter_llm_projection_eq_map, idsProcessed_none]
    simp
  · rw [iter_messages_normalized_eq_map, iter_messages_normalized_eq_map,
      idsProcessed_zero, idsProcessed_none]
  · rw [iter_messages_normalized_eq_map, idsProcessed_none]
    simp
  · rw [iter_messages_full_no_blobs_eq_map,
      iter_messages_full_no_blobs_eq_map, idsProcessed_zero,
      idsProcessed_none]
  · rw [iter_messages_full_no_blobs_eq_map, idsProcessed_none]
    simp

end GmailClient
